import Mathlib

/-!
Verification of `docs/scrape_help.py`, a documentation-generation script that
scrapes a CLI tool's help text, converts it to manual pages and HTML, and
writes documentation fragments.  The Python functions are shallowly embedded:
pure text processing becomes Lean functions over `String`/`List Char`, process
invocations are abstracted as input parameters (exit code, captured output),
and `sys.exit` / uncaught exceptions become `Except` results.
-/

/-- Model of Python's whitespace class used by `str.strip` / `str.split` /
regex `\s` for the ASCII range relevant to help text. -/
def pyWS (c : Char) : Bool :=
  c = ' ' || c = '\t' || c = '\n' || c = '\r' || c = '\x0b' || c = '\x0c'

/-- Model of Python `str.strip()`: remove leading and trailing whitespace. -/
def pyStrip (s : String) : String :=
  String.mk (((s.data.dropWhile pyWS).reverse.dropWhile pyWS).reverse)

/-- Split a character list at every separator character, keeping empty
chunks, as Python `str.split(sep)` does. -/
def splitChars (p : Char → Bool) : List Char → List (List Char)
  | [] => [[]]
  | c :: cs =>
    if p c then
      [] :: splitChars p cs
    else
      match splitChars p cs with
      | [] => [[c]]
      | t :: ts => (c :: t) :: ts

/-- Model of Python `str.split()` with no argument: split on whitespace runs,
discarding empty chunks. -/
def pySplit (s : String) : List String :=
  ((splitChars pyWS s.data).map String.mk).filter (fun t => t != "")

/-- Model of Python `str.split(",")`: split on commas, keeping empty chunks. -/
def pySplitComma (s : String) : List String :=
  (splitChars (fun c => c = ',') s.data).map String.mk

/-- The token a line of the command section contributes in the scans of
`conda_commands` / `external_commands`: lines whose character at column 4
is not a space contribute their first whitespace-delimited token
(`line.split()[0]`); continuation lines (space at column 4) contribute
nothing; a missing column 4 or an empty split is a Python `IndexError`,
modelled as `none` at the scan level. -/
def captureTok (l : String) : Option String :=
  match l.data[4]? with
  | none => none
  | some c => if c = ' ' then none else (pySplit l).head?

/-- The line scan shared by `conda_commands` (header `"command"`) and the
first phase of `external_commands` (header `"other commands:"`), lines
69-84 and 92-102 of `scrape_help.py`:  `started` is the `start` flag; a line
stripping to the header sets it; once started, an empty line ends the scan;
otherwise `line[4]` is inspected (`none` = `IndexError`) and, if it is not
a space, `line.split()[0]` is appended (`none` = `IndexError` on an empty
split). -/
def scanSection (header : String) : List String → Bool → Option (List String)
  | [], _ => some []
  | l :: ls, started =>
    if pyStrip l = header then
      scanSection header ls true
    else if started then
      if l = "" then
        some []
      else
        match l.data[4]? with
        | none => none
        | some c =>
          if c = ' ' then
            scanSection header ls true
          else
            match (pySplit l).head? with
            | none => none
            | some tok => (scanSection header ls true).map (fun cs => tok :: cs)
    else
      scanSection header ls false

/-- Entry point of the scan: the `start` flag begins false. -/
def scanSectionTop (header : String) (lines : List String) : Option (List String) :=
  scanSection header lines false

/-- Model of `conda_commands` (lines 68-84): scan the top-level help text
(given here already split into lines) for the section after the `"command"`
header. -/
def conda_commands_model (helpLines : List String) : Option (List String) :=
  scanSectionTop "command" helpLines

/-- A line of the captured section is well formed when it is non-blank,
does not strip to the header, has a character at column 4, and — unless
that character is a space — has a first token. -/
def goodLine (header : String) (l : String) : Prop :=
  l ≠ "" ∧ pyStrip l ≠ header ∧ l.data[4]? ≠ none ∧
    (l.data[4]? = some ' ' ∨ (pySplit l).head? ≠ none)

/-- Prefix of a character list before the LAST occurrence of `c`, or `none`
if `c` does not occur. -/
def beforeLast (c : Char) : List Char → Option (List Char)
  | [] => none
  | x :: xs =>
    match beforeLast c xs with
    | some r => some (x :: r)
    | none => if x = c then some [] else none

/-- Model of `re.match` against `subcommands_re = re.compile(r"\s*\x7b(.*)\x7d\s*")`
(line 106), returning group 1: the pattern matches a prefix of the line
consisting of whitespace, then a literal open brace; the greedy `(.*)`
captures everything up to the last close brace on the line (anything may
follow, since the final `\s*` may match the empty string). -/
def braceMatch (line : String) : Option String :=
  match line.data.dropWhile pyWS with
  | '{' :: after => (beforeLast '}' after).map String.mk
  | _ => none

/-- The per-command subcommand scan of `external_commands` (lines 118-129):
once a line strips to `"positional arguments:"`, the next line (unless it
also strips to the header) is matched against the brace pattern; on a match
the comma-separated items become `"<command> <item>"` entries; either way
the loop breaks. -/
def subScanAux (command : String) : List String → Bool → List String
  | [], _ => []
  | l :: ls, started =>
    if pyStrip l = "positional arguments:" then
      subScanAux command ls true
    else if started then
      match braceMatch l with
      | some g => (pySplitComma g).map (fun i => command ++ " " ++ i)
      | none => []
    else
      subScanAux command ls false

/-- Subcommand entries contributed by one external command's help text. -/
def subcommandEntries (command : String) (helpLines : List String) : List String :=
  subScanAux command helpLines false

/-- Model of `external_commands` (lines 87-130): scan the top-level help for
the `"other commands:"` section, then append, for each base command (in
list order, modelling the dictionary's insertion order), the subcommand
entries found in that command's own help text.  `cmdHelp` abstracts
`conda_command_help`, giving each command's help already split into lines;
`none` models the `IndexError` cases of the column scan. -/
def external_commands_model (helpLines : List String)
    (cmdHelp : String → List String) : Option (List String) :=
  (scanSectionTop "other commands:" helpLines).map
    (fun base => base ++ base.flatMap (fun c => subcommandEntries c (cmdHelp c)))

/-- Whether `pat` occurs as a contiguous substring of `s` (Python `in`,
and the occurrence test underlying `str.replace`). -/
def containsSub (pat : List Char) : List Char → Bool
  | [] => pat.isEmpty
  | c :: cs => pat.isPrefixOf (c :: cs) || containsSub pat cs

/-- Fuel-driven core of Python `str.replace` for a non-empty pattern:
scan left to right; at each position, if the pattern starts here, emit the
replacement and skip past the occurrence (non-overlapping), else keep the
character.  Each step consumes at least one input character, so fuel equal
to the input length suffices; exhausted fuel returns the remainder
unchanged (unreachable with sufficient fuel). -/
def pyReplaceFuel (pat repl : List Char) : Nat → List Char → List Char
  | 0, s => s
  | _ + 1, [] => []
  | fuel + 1, c :: cs =>
    if pat ≠ [] && pat.isPrefixOf (c :: cs) then
      repl ++ pyReplaceFuel pat repl fuel ((c :: cs).drop pat.length)
    else
      c :: pyReplaceFuel pat repl fuel cs

/-- Model of Python `s.replace(pat, repl)`: replaces every non-overlapping
occurrence left to right; for the empty pattern Python inserts the
replacement before every character and at the end. -/
def pyReplace (s pat repl : String) : String :=
  if pat.data = [] then
    String.mk (repl.data ++ s.data.flatMap (fun c => c :: repl.data))
  else
    String.mk (pyReplaceFuel pat.data repl.data s.data.length s.data)

/-- The replacement loop of `generate_man` (lines 176-178): fold the ordered
replacement table over the manpage text with full single-key replacement at
each step. -/
def applyReplacements (table : List (String × String)) (text : String) : String :=
  table.foldl (fun t kv => pyReplace t kv.1 kv.2) text

deriving instance DecidableEq for Except

/-- The two output channels a `print` in `run_command` can target. -/
inductive Chan where
  | stdout : Chan
  | stderr : Chan
deriving DecidableEq

/-- A message emitted by `run_command`: either the failure diagnostic
(`"... failed with error code ..."`, line 41, printed with
`file=sys.stderr`) or the stderr-content warning (`"... gave stderr
output: ..."`, line 48, printed with no `file=` argument). -/
inductive Emission where
  | diag : List String → Int → Emission
  | warn : List String → String → Emission
deriving DecidableEq

/-- The channel each `run_command` message goes to: the diagnostic names
`file=sys.stderr`; the warning `print` has no `file=` argument, so it goes
to standard output. -/
def emissionStream : Emission → Chan
  | Emission.diag _ _ => Chan.stderr
  | Emission.warn _ _ => Chan.stdout

/-- Model of `run_command` (lines 32-50).  The subprocess is abstracted by
its exit code `rc`, decoded stdout `out` and decoded stderr `err0`; when
`include_stderr` is true, stderr was merged into stdout and
`p.communicate()` returns `None` for it, decoded here as `""`.  Returns the
decoded stdout and the list of messages printed; it never raises. -/
def run_command_model (args : List String) (include_stderr : Bool)
    (rc : Int) (out err0 : String) : String × List Emission :=
  let err := if include_stderr then "" else err0
  let msgs :=
    if rc ≠ 0 then [Emission.diag args rc]
    else if err ≠ "" then [Emission.warn args err]
    else []
  (out, msgs)

/-- The retry loop of `generate_man` (lines 153-171):
`while not manpage and retries:` re-invokes the converter; `conv i` is the
output of the `i`-th `help2man` invocation and `calls` counts invocations
made so far.  Returns the final `manpage` value and the total number of
invocations. -/
def manLoop (conv : Nat → String) : Nat → String → Nat → String × Nat
  | 0, manpage, calls => (manpage, calls)
  | retries + 1, manpage, calls =>
    if manpage = "" then
      manLoop conv retries (conv calls) (calls + 1)
    else
      (manpage, calls)

/-- Environment abstracting the subprocesses `generate_man` talks to:
the `conda --version` query (exit code and merged output), the `help2man`
converter (output text of each invocation), and the replacement table that
`man_replacements` would build from `conda info --json`. -/
structure GenManEnv where
  versionRc : Int
  versionOut : String
  conv : Nat → String
  replacements : List (String × String)

/-- Observable outcome of one `generate_man` call: messages printed by the
version query, number of converter invocations, number of
`man_replacements` info queries performed, and either the fatal
`sys.exit` message or the final manpage text written. -/
structure GenManResult where
  emissions : List Emission
  convCalls : Nat
  infoQueries : Nat
  outcome : Except String String
deriving DecidableEq

/-- Model of `generate_man` (lines 150-182): fetch the version via
`run_command` (merged stderr, never fatal), run the retry loop starting
with `manpage = ""` and `retries = 5`, and on persistent empty output
`sys.exit` with a message naming the command; otherwise query
`man_replacements()` once, apply the table, and produce the final text. -/
def generate_man_sim (env : GenManEnv) (command : String) : GenManResult :=
  let ver := run_command_model ["conda", "--version"] true env.versionRc env.versionOut ""
  let lr := manLoop env.conv 5 "" 0
  if lr.1 = "" then
    { emissions := ver.2
      convCalls := lr.2
      infoQueries := 0
      outcome := Except.error ("Error: Could not get help for conda " ++ command) }
  else
    { emissions := ver.2
      convCalls := lr.2
      infoQueries := 1
      outcome := Except.ok (applyReplacements env.replacements lr.1) }

/-- Total number of `conda info --json` queries made by `man_replacements`
across a run of `main` over `commands`: one `generate_man` call per
command, each performing its own `man_replacements()` call on success
(line 176). -/
def run_infoQueries (env : GenManEnv) (commands : List String) : Nat :=
  (commands.map (fun c => (generate_man_sim env c).infoQueries)).sum

/-- One call of `conda_help` (lines 57-61) with its mutable-default-argument
cache: if the cache is non-empty return its sole element, otherwise perform
the help query `q`, append the result, and return it.  The `Bool` records
whether this call performed the external query. -/
def condaHelpCall (q : String) (cache : List String) : (String × Bool) × List String :=
  match cache with
  | c :: rest => ((c, false), c :: rest)
  | [] => ((q, true), [q])

/-- Cache contents after `n` calls of `conda_help`, where `qs i` is the help
text the external query would return on call `i` (the default-argument list
starts empty at process start). -/
def condaHelpCache (qs : Nat → String) : Nat → List String
  | 0 => []
  | n + 1 => (condaHelpCall (qs n) (condaHelpCache qs n)).2

/-- Result (returned text, did-query flag) of the `n`-th call of
`conda_help` in a process lifetime. -/
def condaHelpNth (qs : Nat → String) (n : Nat) : String × Bool :=
  (condaHelpCall (qs n) (condaHelpCache qs n)).1

/-- The `core_commands` list of `main` (line 231). -/
def core_commands : List String := []

/-- The hard-coded `build_commands` list of `main` (lines 235-251). -/
def build_commands : List String :=
  ["build", "convert", "develop", "index", "inspect", "inspect channels",
   "inspect linkages", "inspect objects", "metapackage", "render", "skeleton",
   "skeleton cpan", "skeleton cran", "skeleton luarocks", "skeleton pypi"]

/-- `commands = sys.argv[1:] or core_commands + build_commands` (line 253):
an empty argument list is falsy, so the default list is used. -/
def resolveCommands (argv : List String) : List String :=
  if argv = [] then core_commands ++ build_commands else argv

/-- `command.replace(" ", "-")`, the file-name sanitization used throughout. -/
def sanitizeCommand (command : String) : String :=
  pyReplace command " " "-"

/-- Relative path (as components under the docs directory) of the file
`write_rst` writes (lines 211-221): `source/commands`, then the optional
`sep` category subdirectory, then `conda-<sanitized>.rst`. -/
def write_rst_path (command : String) (sep : Option String) : List String :=
  (match sep with
   | some s => ["source", "commands", s]
   | none => ["source", "commands"]) ++ ["conda-" ++ sanitizeCommand command ++ ".rst"]

/-- The sequence of `write_rst` calls `main` makes after the generation
tasks (lines 263-264): one per element of
`[c for c in build_commands if c in commands]`, in `build_commands` order,
each invoked as `write_rst(command)` — with no `sep` argument, so `sep`
is `None` for every call. -/
def rstWrites (argv : List String) : List (String × Option String) :=
  (build_commands.filter (fun c => decide (c ∈ resolveCommands argv))).map
    (fun c => (c, (none : Option String)))


/-- After any positive number of calls the `conda_help` cache holds exactly
the first query's result. -/
lemma condaHelpCache_succ (qs : Nat → String) :
    ∀ n : Nat, condaHelpCache qs (n + 1) = [qs 0] := by
  intro n
  induction n with
  | zero => rfl
  | succ m ih =>
    show (condaHelpCall (qs (m + 1)) (condaHelpCache qs (m + 1))).2 = [qs 0]
    rw [ih]
    rfl

/-- The claim C9: the first `conda_help` call performs the external help
query; every later call returns the identical cached string and performs no
query, so all callers read the same value. -/
theorem conda_help_memo_spec (qs : Nat → String) (n : Nat) :
    condaHelpNth qs 0 = (qs 0, true) ∧
    (0 < n → condaHelpNth qs n = (qs 0, false)) := by
  constructor
  · rfl
  · intro hn
    cases n with
    | zero => exact absurd hn (by simp)
    | succ m =>
      simp [condaHelpNth, condaHelpCache_succ, condaHelpCall]

/-- Witness for C9 at a concrete query sequence: call 0 queries, call 2
returns the cached first result without querying. -/
theorem conda_help_memo_spec_witness :
    condaHelpNth (fun _ => "helptext") 0 = ("helptext", true) ∧
    condaHelpNth (fun _ => "helptext") 2 = ("helptext", false) :=
  ⟨(conda_help_memo_spec (fun _ => "helptext") 2).1,
   (conda_help_memo_spec (fun _ => "helptext") 2).2 (by decide)⟩

/-- A non-empty manpage stops the retry loop immediately. -/
lemma manLoop_stop (conv : Nat → String) (m : String) (c : Nat) (h : m ≠ "") :
    ∀ r : Nat, manLoop conv r m c = (m, c) := by
  intro r
  cases r with
  | zero => rfl
  | succ s => simp [manLoop, h]

/-- If every converter invocation yields empty output, the loop runs its
retries to exhaustion, one invocation per retry. -/
lemma manLoop_allEmpty (conv : Nat → String) (h : ∀ i, conv i = "") :
    ∀ (r c : Nat), manLoop conv r "" c = ("", c + r) := by
  intro r
  induction r with
  | zero => intro c; rfl
  | succ s ih =>
    intro c
    have hstep : manLoop conv (s + 1) "" c = manLoop conv s (conv c) (c + 1) := by
      simp [manLoop]
    rw [hstep, h c, ih (c + 1)]
    have harith : c + 1 + s = c + (s + 1) := by omega
    rw [harith]

/-- If the first non-empty converter output is the `k`-th (counting from the
current invocation counter), and there are enough retries left, the loop
stops right after that invocation. -/
lemma manLoop_firstNonEmpty (conv : Nat → String) :
    ∀ (k r c : Nat), k < r → (∀ i, i < k → conv (c + i) = "") →
      conv (c + k) ≠ "" → manLoop conv r "" c = (conv (c + k), c + k + 1) := by
  intro k
  induction k with
  | zero =>
    intro r c hr hlt hne
    cases r with
    | zero => exact absurd hr (by omega)
    | succ s =>
      simp only [Nat.add_zero] at hne ⊢
      simp only [manLoop, if_pos rfl]
      exact manLoop_stop conv (conv c) (c + 1) hne s
  | succ p ih =>
    intro r c hr hlt hne
    cases r with
    | zero => exact absurd hr (by omega)
    | succ s =>
      have h0 : conv c = "" := by
        have := hlt 0 (by omega)
        simpa using this
      have hstep : manLoop conv (s + 1) "" c = manLoop conv s (conv c) (c + 1) := by
        simp [manLoop]
      have hlt' : ∀ i, i < p → conv (c + 1 + i) = "" := by
        intro i hi
        have := hlt (i + 1) (by omega)
        have harith : c + (i + 1) = c + 1 + i := by omega
        rwa [harith] at this
      have hne' : conv (c + 1 + p) ≠ "" := by
        have harith : c + 1 + p = c + (p + 1) := by omega
        rwa [harith]
      have hrec := ih s (c + 1) (by omega) hlt' hne'
      rw [hstep, h0, hrec]
      have harith : c + 1 + p = c + (p + 1) := by omega
      rw [harith]

/-- The claim C1: if every converter invocation yields empty output,
`generate_man` invokes the converter exactly 5 times and then aborts with a
fatal message naming the command; if the first non-empty output is the
`k`-th attempt (`k < 5`), exactly `k + 1` invocations occur and the run
succeeds with that output (after replacements). -/
theorem generate_man_retry_spec (env : GenManEnv) (command : String) :
    ((∀ i, env.conv i = "") →
      (generate_man_sim env command).convCalls = 5 ∧
      (generate_man_sim env command).outcome =
        Except.error ("Error: Could not get help for conda " ++ command)) ∧
    (∀ k, k < 5 → (∀ i, i < k → env.conv i = "") → env.conv k ≠ "" →
      (generate_man_sim env command).convCalls = k + 1 ∧
      (generate_man_sim env command).outcome =
        Except.ok (applyReplacements env.replacements (env.conv k))) := by
  constructor
  · intro hempty
    have hloop := manLoop_allEmpty env.conv hempty 5 0
    simp [generate_man_sim, hloop]
  · intro k hk hbefore hne
    have hbefore' : ∀ i, i < k → env.conv (0 + i) = "" := by
      intro i hi
      simpa using hbefore i hi
    have hne' : env.conv (0 + k) ≠ "" := by simpa using hne
    have hloop := manLoop_firstNonEmpty env.conv k 5 0 hk hbefore' hne'
    simp only [Nat.zero_add] at hloop
    simp [generate_man_sim, hloop, hne]

/-- Witness for C1: an always-empty converter for command `"frobnicate"`
yields exactly 5 invocations and the fatal message naming it; a converter
whose second attempt is non-empty yields exactly 2 invocations. -/
theorem generate_man_retry_spec_witness :
    (generate_man_sim ⟨0, "4.1", fun _ => "", []⟩ "frobnicate").convCalls = 5 ∧
    (generate_man_sim ⟨0, "4.1", fun _ => "", []⟩ "frobnicate").outcome =
      Except.error "Error: Could not get help for conda frobnicate" ∧
    (generate_man_sim ⟨0, "4.1", fun i => if i = 0 then "" else "mm", []⟩ "x").convCalls = 2 := by
  have h1 := (generate_man_retry_spec ⟨0, "4.1", fun _ => "", []⟩ "frobnicate").1
    (fun _ => rfl)
  have h2 := (generate_man_retry_spec ⟨0, "4.1", fun i => if i = 0 then "" else "mm", []⟩ "x").2
    1 (by decide)
    (fun i hi => match i, hi with
      | 0, _ => rfl)
    (by decide)
  exact ⟨h1.1, h1.2, h2.1⟩

/-- Lines before the header (none of which strips to the header) are walked
over without capturing. -/
lemma scanSection_skip (header : String) :
    ∀ (pre : List String), (∀ l ∈ pre, pyStrip l ≠ header) →
      ∀ ls, scanSection header (pre ++ ls) false = scanSection header ls false := by
  intro pre
  induction pre with
  | nil => intro _ ls; rfl
  | cons l pre ih =>
    intro hpre ls
    have hl : pyStrip l ≠ header := hpre l (by simp)
    show scanSection header (l :: (pre ++ ls)) false = scanSection header ls false
    simp only [scanSection, if_neg hl]
    simpa using ih (fun x hx => hpre x (by simp [hx])) ls

/-- Once capturing has begun, walking a block of well-formed lines collects
exactly the `captureTok` of each line, prepended to whatever the rest of
the scan yields. -/
lemma scanSection_body (header : String) :
    ∀ (body : List String), (∀ l ∈ body, goodLine header l) →
      ∀ tail, scanSection header (body ++ tail) true =
        (scanSection header tail true).map (fun r => body.filterMap captureTok ++ r) := by
  intro body
  induction body with
  | nil =>
    intro _ tail
    simp only [List.nil_append, List.filterMap_nil, List.nil_append]
    cases scanSection header tail true <;> simp
  | cons l body ih =>
    intro hbody tail
    obtain ⟨hl1, hl2, hl3, hl4⟩ := hbody l (by simp)
    have ihtail := ih (fun x hx => hbody x (by simp [hx])) tail
    obtain ⟨c, hc⟩ : ∃ c, l.data[4]? = some c := by
      cases h : l.data[4]? with
      | none => exact absurd h hl3
      | some c => exact ⟨c, rfl⟩
    show scanSection header (l :: (body ++ tail)) true = _
    by_cases hsp : c = ' '
    · subst hsp
      have hcap : captureTok l = none := by simp [captureTok, hc]
      simp [scanSection, hl2, hl1, hc, ihtail, hcap]
    · obtain ⟨tok, htok⟩ : ∃ tok, (pySplit l).head? = some tok := by
        cases hl4 with
        | inl h => exact absurd (by rw [hc] at h; exact Option.some.inj h) hsp
        | inr h =>
          cases ht : (pySplit l).head? with
          | none => exact absurd ht h
          | some tok => exact ⟨tok, rfl⟩
      have hcap : captureTok l = some tok := by simp [captureTok, hc, hsp, htok]
      simp only [scanSection, if_neg hl2, hc, htok, ihtail, List.filterMap_cons, hcap]
      simp [hl1, hsp]
      cases scanSection header tail true <;> simp

/-- The empty line has empty strip. -/
lemma pyStrip_empty : pyStrip "" = "" := rfl

/-- The claim C2: on a help text of the expected layout — some lines none of
which strips to `"command"`, then a header line stripping to `"command"`,
then a block of well-formed non-blank lines, then a blank line — the scan of
`conda_commands` returns exactly the first whitespace-delimited token of
each block line whose character at column 4 is not a space, in order;
continuation lines (space at column 4) contribute nothing. -/
theorem conda_commands_section_spec (pre : List String) (hdr : String)
    (body rest : List String)
    (hpre : ∀ l ∈ pre, pyStrip l ≠ "command")
    (hhdr : pyStrip hdr = "command")
    (hbody : ∀ l ∈ body, goodLine "command" l) :
    conda_commands_model (pre ++ hdr :: (body ++ "" :: rest)) =
      some (body.filterMap captureTok) := by
  show scanSection "command" (pre ++ hdr :: (body ++ "" :: rest)) false = _
  rw [scanSection_skip "command" pre hpre]
  show (if pyStrip hdr = "command" then scanSection "command" (body ++ "" :: rest) true
        else _) = _
  rw [if_pos hhdr, scanSection_body "command" body hbody ("" :: rest)]
  have hstop : scanSection "command" ("" :: rest) true = some [] := by
    have : pyStrip "" ≠ "command" := by decide
    simp [scanSection, this]
  rw [hstop]
  simp

/-- Witness for C2 on a concrete help text: two command lines with
descriptions and one continuation line yield exactly the two first tokens. -/
theorem conda_commands_section_spec_witness :
    conda_commands_model
      ["usage: conda [-h]", "command", "    clean   Remove stuff",
       "            continuation", "    compare   Compare", "", "ignored"] =
      some ["clean", "compare"] := by
  have h := conda_commands_section_spec ["usage: conda [-h]"] "command"
    ["    clean   Remove stuff", "            continuation", "    compare   Compare"]
    ["ignored"]
    (by decide) (by decide)
    (by intro l hl; fin_cases hl <;> constructor <;> decide)
  exact h.trans (by decide)

/-- The claim C10: both command-section scans read `line[4]` on every
non-blank captured line, so a non-blank line shorter than 5 characters in
the captured section is an out-of-range index — the scan fails (`none`,
modelling the `IndexError`) instead of skipping the line as a continuation
line.  The statement is generic in the header, covering both
`conda_commands` (header `"command"`) and the first phase of
`external_commands` (header `"other commands:"`). -/
theorem scan_short_line_fails (header : String)
    (pre : List String) (hdr : String) (body : List String) (l : String)
    (rest : List String)
    (hpre : ∀ x ∈ pre, pyStrip x ≠ header)
    (hhdr : pyStrip hdr = header)
    (hbody : ∀ x ∈ body, goodLine header x)
    (hl1 : l ≠ "") (hl2 : pyStrip l ≠ header) (hl3 : l.data.length < 5) :
    scanSectionTop header (pre ++ hdr :: (body ++ l :: rest)) = none := by
  show scanSection header (pre ++ hdr :: (body ++ l :: rest)) false = none
  rw [scanSection_skip header pre hpre]
  show (if pyStrip hdr = header then scanSection header (body ++ l :: rest) true
        else _) = none
  rw [if_pos hhdr, scanSection_body header body hbody (l :: rest)]
  have hidx : l.data[4]? = none := by
    rw [List.getElem?_eq_none_iff]
    omega
  have hstop : scanSection header (l :: rest) true = none := by
    simp [scanSection, hl2, hl1, hidx]
  rw [hstop]
  rfl

/-- Witness for C10: the three-character line `"abc"` inside the captured
section of a `"command"` help layout makes the scan fail. -/
theorem scan_short_line_fails_witness :
    scanSectionTop "command" ["usage", "command", "    clean   Remove", "abc", ""] = none :=
  scan_short_line_fails "command" ["usage"] "command" ["    clean   Remove"] "abc" [""]
    (by decide) (by decide)
    (by intro x hx; fin_cases hx; constructor <;> decide)
    (by decide) (by decide) (by decide)

/-- Dropping while a predicate holds walks over any block of characters all
satisfying it. -/
lemma dropWhile_all_append (p : Char → Bool) :
    ∀ (ws l : List Char), (∀ c ∈ ws, p c = true) →
      List.dropWhile p (ws ++ l) = List.dropWhile p l := by
  intro ws
  induction ws with
  | nil => intro l _; rfl
  | cons c ws ih =>
    intro l hws
    have hc : p c = true := hws c (by simp)
    show List.dropWhile p (c :: (ws ++ l)) = _
    rw [List.dropWhile_cons_of_pos hc]
    exact ih l (fun x hx => hws x (by simp [hx]))

/-- If `c` does not occur, there is no prefix before its last occurrence. -/
lemma beforeLast_not_mem (c : Char) :
    ∀ l : List Char, c ∉ l → beforeLast c l = none := by
  intro l
  induction l with
  | nil => intro _; rfl
  | cons x xs ih =>
    intro h
    have hx : x ≠ c := fun he => h (by simp [he])
    have hxs : c ∉ xs := fun hm => h (by simp [hm])
    simp [beforeLast, ih hxs, hx]

/-- The prefix before the last occurrence of `c`, when the tail after the
shown occurrence contains no further `c`. -/
lemma beforeLast_append (c : Char) (trail : List Char) (htrail : c ∉ trail) :
    ∀ inner : List Char, beforeLast c (inner ++ c :: trail) = some inner := by
  intro inner
  induction inner with
  | nil =>
    show beforeLast c (c :: trail) = some []
    simp [beforeLast, beforeLast_not_mem c trail htrail]
  | cons x xs ih =>
    show beforeLast c (x :: (xs ++ c :: trail)) = some (x :: xs)
    simp [beforeLast, ih]

/-- The regex model recognises a line of the shape
whitespace `{` inner `}` trail (with no later close brace), extracting
`inner` — the text between the open brace and the last close brace. -/
lemma braceMatch_shape (ws inner trail : List Char)
    (hws : ∀ c ∈ ws, pyWS c = true) (htrail : '}' ∉ trail) :
    braceMatch (String.mk (ws ++ '{' :: (inner ++ '}' :: trail))) =
      some (String.mk inner) := by
  show (match List.dropWhile pyWS (ws ++ '{' :: (inner ++ '}' :: trail)) with
        | '{' :: after => (beforeLast '}' after).map String.mk
        | _ => none) = some (String.mk inner)
  rw [dropWhile_all_append pyWS ws _ hws]
  rw [List.dropWhile_cons_of_neg (by decide)]
  show (beforeLast '}' (inner ++ '}' :: trail)).map String.mk = some (String.mk inner)
  rw [beforeLast_append '}' trail htrail inner]
  rfl

/-- Lines before the `"positional arguments:"` header are walked over by
the subcommand scan without effect. -/
lemma subScanAux_skip (command : String) :
    ∀ (pre : List String), (∀ l ∈ pre, pyStrip l ≠ "positional arguments:") →
      ∀ ls, subScanAux command (pre ++ ls) false = subScanAux command ls false := by
  intro pre
  induction pre with
  | nil => intro _ ls; rfl
  | cons l pre ih =>
    intro hpre ls
    have hl : pyStrip l ≠ "positional arguments:" := hpre l (by simp)
    show subScanAux command (l :: (pre ++ ls)) false = _
    simp only [subScanAux, if_neg hl]
    simpa using ih (fun x hx => hpre x (by simp [hx])) ls

/-- On a help text whose `"positional arguments:"` header is immediately
followed by a line the brace regex matches with group `g`, the subcommand
scan yields one `"<command> <item>"` entry per comma-separated item of
`g`. -/
lemma subcommandEntries_found (command : String) (pre : List String)
    (hdr line : String) (rest : List String) (g : String)
    (hpre : ∀ l ∈ pre, pyStrip l ≠ "positional arguments:")
    (hhdr : pyStrip hdr = "positional arguments:")
    (hnh : pyStrip line ≠ "positional arguments:")
    (hbm : braceMatch line = some g) :
    subcommandEntries command (pre ++ hdr :: line :: rest) =
      (pySplitComma g).map (fun i => command ++ " " ++ i) := by
  show subScanAux command (pre ++ hdr :: line :: rest) false = _
  rw [subScanAux_skip command pre hpre]
  show (if pyStrip hdr = "positional arguments:" then
          subScanAux command (line :: rest) true
        else _) = _
  rw [if_pos hhdr]
  simp [subScanAux, hnh, hbm]

/-- The claim C3: when an external command `cmd` (appearing among the base
commands scanned from the `"other commands:"` section) has a help text
whose `"positional arguments:"` header is immediately followed by a
brace-set line `{...}` (whitespace, open brace, items, close brace, with no
later close brace on the line), `external_commands` appends the entries
`"cmd <item>"` — one per comma-separated item, in order — after the base
commands in its result. -/
theorem external_commands_brace_expansion
    (helpLines : List String) (cmdHelp : String → List String)
    (base b1 b2 : List String) (cmd : String)
    (pre : List String) (hdr line : String) (rest : List String)
    (ws inner trail : List Char)
    (hbase : scanSectionTop "other commands:" helpLines = some base)
    (hsplit : base = b1 ++ cmd :: b2)
    (hpre : ∀ l ∈ pre, pyStrip l ≠ "positional arguments:")
    (hhdr : pyStrip hdr = "positional arguments:")
    (hch : cmdHelp cmd = pre ++ hdr :: line :: rest)
    (hline : line = String.mk (ws ++ '{' :: (inner ++ '}' :: trail)))
    (hws : ∀ c ∈ ws, pyWS c = true)
    (htrail : '}' ∉ trail)
    (hnh : pyStrip line ≠ "positional arguments:") :
    external_commands_model helpLines cmdHelp =
      some (base ++
        (b1.flatMap (fun c => subcommandEntries c (cmdHelp c)) ++
         ((pySplitComma (String.mk inner)).map (fun i => cmd ++ " " ++ i) ++
          b2.flatMap (fun c => subcommandEntries c (cmdHelp c))))) := by
  have hbm : braceMatch line = some (String.mk inner) := by
    rw [hline]
    exact braceMatch_shape ws inner trail hws htrail
  have hentries : subcommandEntries cmd (cmdHelp cmd) =
      (pySplitComma (String.mk inner)).map (fun i => cmd ++ " " ++ i) := by
    rw [hch]
    exact subcommandEntries_found cmd pre hdr line rest (String.mk inner)
      hpre hhdr hnh hbm
  show (scanSectionTop "other commands:" helpLines).map
      (fun b => b ++ b.flatMap (fun c => subcommandEntries c (cmdHelp c))) = _
  rw [hbase]
  simp only [Option.map_some']
  rw [hsplit]
  simp [List.flatMap_append, List.flatMap_cons, hentries, List.append_assoc]

/-- Witness for C3: a concrete external command `"skeleton"` whose help has
a positional-arguments brace line `{cpan,pypi}` contributes
`"skeleton cpan"` and `"skeleton pypi"` right after the base commands. -/
theorem external_commands_brace_expansion_witness :
    external_commands_model
      ["other commands:", "    skeleton   Make a recipe", ""]
      (fun _ => ["usage: conda skeleton", "positional arguments:",
                 "  \x7bcpan,pypi\x7d"]) =
      some ["skeleton", "skeleton cpan", "skeleton pypi"] := by
  have h := external_commands_brace_expansion
    ["other commands:", "    skeleton   Make a recipe", ""]
    (fun _ => ["usage: conda skeleton", "positional arguments:",
               "  \x7bcpan,pypi\x7d"])
    ["skeleton"] [] [] "skeleton"
    ["usage: conda skeleton"] "positional arguments:" "  \x7bcpan,pypi\x7d" []
    [' ', ' '] "cpan,pypi".data []
    (by decide) rfl
    (by intro l hl; fin_cases hl; decide)
    (by decide) rfl (by decide)
    (by intro c hc; fin_cases hc <;> decide)
    (by decide) (by decide)
  exact h.trans (by decide)

/-- Counterexample to C4 as stated: in the default run every `write_rst`
call `main` makes passes no category (`sep` is `None` for all 15 writes),
and the resulting fragment path sits directly under `source/commands` with
no category subdirectory component. -/
theorem write_rst_no_category_cex :
    rstWrites [] = build_commands.map (fun c => (c, (none : Option String))) ∧
    write_rst_path "build" none = ["source", "commands", "conda-build.rst"] ∧
    write_rst_path "build" (some "build-tools") ≠
      ["source", "commands", "conda-build.rst"] := by
  decide

/-- The amended claim C4: after the generation tasks, fragments are written
for exactly those resolved commands that belong to the hard-coded
build-tooling list (none for any other resolved command), each written with
no category — `write_rst` is invoked without a `sep` argument, so every
fragment lands directly in the fixed `source/commands` directory. -/
theorem write_rst_build_subset (argv : List String) (c : String) :
    ((c, (none : Option String)) ∈ rstWrites argv ↔
      c ∈ build_commands ∧ c ∈ resolveCommands argv) ∧
    (∀ e ∈ rstWrites argv, e.2 = none) ∧
    write_rst_path c none =
      ["source", "commands", "conda-" ++ sanitizeCommand c ++ ".rst"] := by
  refine ⟨?_, ?_, rfl⟩
  · simp [rstWrites, List.mem_filter, List.mem_map]
  · intro e he
    simp only [rstWrites, List.mem_map] at he
    obtain ⟨a, _, rfl⟩ := he
    rfl

/-- Witness for C4 (amended): `"build"` is written (it is in the
build-tooling list and resolved by the default run), always with no
category. -/
theorem write_rst_build_subset_witness :
    ("build", (none : Option String)) ∈ rstWrites [] ∧
    write_rst_path "build" none = ["source", "commands", "conda-build.rst"] := by
  have h := write_rst_build_subset [] "build"
  exact ⟨h.1.mpr (by decide), h.2.2⟩

/-- Counterexample to C5 as stated: on a zero exit with unmerged stderr
content, the warning `print` (line 48) has no `file=sys.stderr` argument,
so the single message goes to standard output, not the error stream. -/
theorem run_command_warn_stdout_cex :
    (run_command_model ["conda", "--help"] false 0 "out" "oops").2 =
      [Emission.warn ["conda", "--help"] "oops"] ∧
    emissionStream (Emission.warn ["conda", "--help"] "oops") = Chan.stdout ∧
    Chan.stdout ≠ Chan.stderr := by
  decide

/-- The amended claim C5: `run_command` always returns the decoded stdout
without raising; a non-zero exit emits one diagnostic to the error stream;
a zero exit with stderr content that was not merged emits one warning — to
standard output, not the error stream; otherwise nothing is printed. -/
theorem run_command_emission_spec (args : List String) (inc : Bool)
    (rc : Int) (out err : String) :
    (run_command_model args inc rc out err).1 = out ∧
    (rc ≠ 0 →
      (run_command_model args inc rc out err).2 = [Emission.diag args rc] ∧
      ((run_command_model args inc rc out err).2.map emissionStream) = [Chan.stderr]) ∧
    (rc = 0 → inc = false → err ≠ "" →
      (run_command_model args inc rc out err).2 = [Emission.warn args err] ∧
      ((run_command_model args inc rc out err).2.map emissionStream) = [Chan.stdout]) ∧
    (rc = 0 → (inc = true ∨ err = "") →
      (run_command_model args inc rc out err).2 = []) := by
  refine ⟨rfl, ?_, ?_, ?_⟩
  · intro hrc
    constructor <;> simp [run_command_model, hrc, emissionStream]
  · intro hrc hinc herr
    subst hinc
    constructor <;> simp [run_command_model, hrc, herr, emissionStream]
  · intro hrc hcase
    cases hcase with
    | inl h => subst h; simp [run_command_model, hrc]
    | inr h => subst h; cases inc <;> simp [run_command_model, hrc]

/-- Witness for C5 (amended) at concrete inputs for each branch. -/
theorem run_command_emission_spec_witness :
    (run_command_model ["x"] false 0 "o" "e").1 = "o" ∧
    (run_command_model ["x"] false 1 "o" "e").2 = [Emission.diag ["x"] 1] ∧
    (run_command_model ["x"] false 0 "o" "e").2 = [Emission.warn ["x"] "e"] ∧
    (run_command_model ["x"] true 0 "o" "e").2 = [] := by
  refine ⟨(run_command_emission_spec ["x"] false 0 "o" "e").1,
    ((run_command_emission_spec ["x"] false 1 "o" "e").2.1 (by decide)).1,
    ((run_command_emission_spec ["x"] false 0 "o" "e").2.2.1 rfl rfl (by decide)).1,
    (run_command_emission_spec ["x"] true 0 "o" "e").2.2.2 rfl (Or.inl rfl)⟩

/-- Counterexample to C6 as stated: a failing version query (exit code 1)
does not abort `generate_man` — the converter is still invoked (once here)
and the run completes with a manpage, the version failure having only
produced a diagnostic. -/
theorem version_failure_no_abort_cex :
    (generate_man_sim ⟨1, "", fun _ => "m", []⟩ "build").emissions =
      [Emission.diag ["conda", "--version"] 1] ∧
    (generate_man_sim ⟨1, "", fun _ => "m", []⟩ "build").convCalls = 1 ∧
    (generate_man_sim ⟨1, "", fun _ => "m", []⟩ "build").outcome = Except.ok "m" := by
  decide

/-- The invocation counter of the retry loop never decreases. -/
lemma manLoop_calls_le (conv : Nat → String) :
    ∀ (r : Nat) (m : String) (c : Nat), c ≤ (manLoop conv r m c).2 := by
  intro r
  induction r with
  | zero => intro m c; exact Nat.le_refl c
  | succ s ih =>
    intro m c
    by_cases hm : m = ""
    · subst hm
      have hstep : manLoop conv (s + 1) "" c = manLoop conv s (conv c) (c + 1) := by
        simp [manLoop]
      rw [hstep]
      exact Nat.le_trans (Nat.le_succ c) (ih (conv c) (c + 1))
    · rw [manLoop_stop conv m c hm (s + 1)]

/-- The amended claim C6: the version query in `generate_man` goes through
`run_command`, which never aborts — a non-zero exit only emits a diagnostic
to the error stream, and `generate_man` proceeds to invoke the converter at
least once regardless. -/
theorem version_failure_diag_spec (env : GenManEnv) (command : String)
    (h : env.versionRc ≠ 0) :
    (generate_man_sim env command).emissions =
      [Emission.diag ["conda", "--version"] env.versionRc] ∧
    1 ≤ (generate_man_sim env command).convCalls := by
  have hcalls : 1 ≤ (manLoop env.conv 5 "" 0).2 := by
    have hstep : manLoop env.conv 5 "" 0 = manLoop env.conv 4 (env.conv 0) 1 := by
      simp [manLoop]
    rw [hstep]
    exact manLoop_calls_le env.conv 4 (env.conv 0) 1
  have hems : (run_command_model ["conda", "--version"] true env.versionRc
      env.versionOut "").2 = [Emission.diag ["conda", "--version"] env.versionRc] := by
    simp [run_command_model, h]
  constructor
  · by_cases hl : (manLoop env.conv 5 "" 0).1 = "" <;>
      simp [generate_man_sim, hl, run_command_model, h]
  · by_cases hl : (manLoop env.conv 5 "" 0).1 = "" <;>
      simpa [generate_man_sim, hl] using hcalls

/-- Witness for C6 (amended): version exit code 2 yields the diagnostic and
a converter invocation count of at least one. -/
theorem version_failure_diag_spec_witness :
    (generate_man_sim ⟨2, "", fun _ => "m", []⟩ "render").emissions =
      [Emission.diag ["conda", "--version"] 2] ∧
    1 ≤ (generate_man_sim ⟨2, "", fun _ => "m", []⟩ "render").convCalls :=
  version_failure_diag_spec ⟨2, "", fun _ => "m", []⟩ "render" (by decide)

/-- Counterexample to C7 as stated: a run over two commands (each
`generate_man` succeeding on its first converter attempt) queries the
tool's JSON runtime info twice — once per command — not once per run. -/
theorem man_replacements_per_command_cex :
    run_infoQueries ⟨0, "4.1", fun _ => "m", []⟩ ["build", "render"] = 2 ∧
    (2 : Nat) ≠ 1 := by
  decide

/-- A successful `generate_man` performs exactly one runtime-info query. -/
lemma generate_man_one_query (env : GenManEnv) (command : String)
    (h : env.conv 0 ≠ "") :
    (generate_man_sim env command).infoQueries = 1 := by
  have hloop : manLoop env.conv 5 "" 0 = (env.conv 0, 1) := by
    have hstep : manLoop env.conv 5 "" 0 = manLoop env.conv 4 (env.conv 0) 1 := by
      simp [manLoop]
    rw [hstep]
    exact manLoop_stop env.conv (env.conv 0) 1 h 4
  simp [generate_man_sim, hloop, h]

/-- The amended claim C7: `man_replacements` is rebuilt inside every
`generate_man` call (line 176), so a run over N commands whose converter
succeeds performs exactly N runtime-info queries, not one. -/
theorem info_query_count_spec (env : GenManEnv) (commands : List String)
    (h : env.conv 0 ≠ "") :
    run_infoQueries env commands = commands.length := by
  induction commands with
  | nil => rfl
  | cons c cs ih =>
    show ((generate_man_sim env c).infoQueries ::
      cs.map (fun x => (generate_man_sim env x).infoQueries)).sum = cs.length + 1
    rw [List.sum_cons, generate_man_one_query env c h]
    have hcs : (cs.map (fun x => (generate_man_sim env x).infoQueries)).sum
        = cs.length := ih
    rw [hcs]
    omega

/-- Witness for C7 (amended): a three-command run queries the runtime info
three times. -/
theorem info_query_count_spec_witness :
    run_infoQueries ⟨0, "4.1", fun _ => "m", []⟩ ["build", "render", "index"] = 3 :=
  info_query_count_spec ⟨0, "4.1", fun _ => "m", []⟩ ["build", "render", "index"]
    (by decide)

/-- Counterexample to C8 as stated: with table `[("b","X"),("ab","Y")]` and
text `"ab"`, the key `"ab"` is present in the input text, yet the result
`"aX"` shows no occurrence of its mapped value `"Y"` — the earlier
replacement destroyed the occurrence, so not every table key present in
the text has its occurrences replaced by its mapped value. -/
theorem replace_sequential_cex :
    containsSub "ab".data "ab".data = true ∧
    applyReplacements [("b", "X"), ("ab", "Y")] "ab" = "aX" ∧
    containsSub "Y".data "aX".data = false := by
  decide

/-- Replacing a pattern that does not occur leaves the text unchanged. -/
lemma pyReplaceFuel_not_contained (pat repl : List Char) :
    ∀ (fuel : Nat) (s : List Char), containsSub pat s = false →
      pyReplaceFuel pat repl fuel s = s := by
  intro fuel
  induction fuel with
  | zero => intro s _; rfl
  | succ f ih =>
    intro s hs
    cases s with
    | nil => rfl
    | cons c cs =>
      have hor := hs
      simp only [containsSub, Bool.or_eq_false_iff] at hor
      show (if pat ≠ [] && pat.isPrefixOf (c :: cs) then _ else _) = c :: cs
      rw [if_neg (by simp [hor.1])]
      rw [ih cs hor.2]

/-- The amended claim C8: replacement application is the sequential
left-to-right fold of Python `str.replace` over the ordered table — the
empty table is the identity transform, each step applies one key's full
replacement to the current (not original) text, and a key absent from the
current text leaves that step the identity; because the steps are
sequential, a key present in the original text is not guaranteed to end up
replaced by its value (see the counterexample). -/
theorem applyReplacements_spec (table : List (String × String))
    (text k v : String) :
    applyReplacements [] text = text ∧
    applyReplacements ((k, v) :: table) text =
      applyReplacements table (pyReplace text k v) ∧
    (k ≠ "" → containsSub k.data text.data = false → pyReplace text k v = text) := by
  refine ⟨rfl, rfl, ?_⟩
  intro hk hsub
  have hkd : k.data ≠ [] := by
    intro h
    exact hk (by cases k; simp only at h; simp [h])
  show (if k.data = [] then _ else
    String.mk (pyReplaceFuel k.data v.data text.data.length text.data)) = text
  rw [if_neg hkd, pyReplaceFuel_not_contained k.data v.data text.data.length
    text.data hsub]

/-- Witness for C8 (amended) at concrete inputs: empty table is the
identity, the fold steps once per table entry, and an absent key changes
nothing. -/
theorem applyReplacements_spec_witness :
    applyReplacements [] "hello" = "hello" ∧
    applyReplacements [("zz", "w"), ("x", "y")] "hello" =
      applyReplacements [("x", "y")] (pyReplace "hello" "zz" "w") ∧
    pyReplace "hello" "zz" "w" = "hello" := by
  have h := applyReplacements_spec [("x", "y")] "hello" "zz" "w"
  exact ⟨h.1, h.2.1, h.2.2 (by decide) (by decide)⟩
